import Mathlib

/-!
Verification of the workflow orchestration engine and the lead-scoring engine
of the prospect-to-lead pipeline (langgraph_builder.py, agents/scoring_agent.py,
agents/base_agent.py).

Shallow embedding conventions:
* Dynamic (JSON-like) Python values are the inductive type `Val`; Python dicts
  are insertion-ordered association lists `Obj`, numbers (int/float) are
  modelled as exact rationals `ℚ`.
* Fallible Python code (code that can raise) returns `Except String _`; the
  error string stands for the exception message.
* Wall-clock timestamps (`datetime.now()`) are abstracted to a caller-supplied
  timestamp string parameter `ts`.
-/

set_option maxHeartbeats 1000000
set_option maxRecDepth 8000

/-- Dynamic Python/JSON value: None, bool, number (int/float as ℚ), string,
list, or insertion-ordered dict. -/
inductive Val where
  | null
  | bool (b : Bool)
  | num (q : ℚ)
  | str (s : String)
  | arr (elems : List Val)
  | obj (fields : List (String × Val))

/-- An insertion-ordered Python dict with string keys. -/
abbrev Obj := List (String × Val)

/-- Dict read with default, modelling Python's `d.get(k, default)`. -/
def objGetD (o : Obj) (k : String) (d : Val) : Val :=
  (o.lookup k).getD d

/-- Key-membership test, modelling Python's `k in d`. -/
def objHas (o : Obj) (k : String) : Bool :=
  (o.lookup k).isSome

/-- Dict write `d[k] = v`: replaces the value in place if the key exists
(keeping its position, as Python dicts do), else appends the pair. -/
def objSet (o : Obj) (k : String) (v : Val) : Obj :=
  match o with
  | [] => [(k, v)]
  | (k', v') :: rest => if k' = k then (k, v) :: rest else (k', v') :: objSet rest k v

/-- Dict merge modelling Python's `{**a, **b}`: entries of `b` override or
extend the entries of `a`. -/
def objMerge (a b : Obj) : Obj :=
  b.foldl (fun acc kv => objSet acc kv.1 kv.2) a

/-- Python truthiness of a value (`bool(v)`). -/
def pyTruthy : Val → Bool
  | .null => false
  | .bool b => b
  | .num q => q != 0
  | .str s => s != ""
  | .arr xs => !xs.isEmpty
  | .obj fs => !fs.isEmpty

mutual
/-- Python `==` between dynamic values: numeric cross-type equality between
bools and numbers (True == 1), structural equality on containers; distinct
scalar types are unequal (never an error). -/
def pyEq : Val → Val → Bool
  | .null, .null => true
  | .bool a, .bool b => a == b
  | .bool a, .num q => (if a then (1 : ℚ) else 0) == q
  | .num q, .bool a => q == (if a then (1 : ℚ) else 0)
  | .num a, .num b => a == b
  | .str a, .str b => a == b
  | .arr a, .arr b => pyEqL a b
  | .obj a, .obj b => pyEqO a b
  | _, _ => false

/-- Elementwise Python equality of lists. -/
def pyEqL : List Val → List Val → Bool
  | [], [] => true
  | x :: xs, y :: ys => pyEq x y && pyEqL xs ys
  | _, _ => false

/-- Fieldwise Python equality of dicts (insertion order respected; the
pipeline never compares dicts whose key order differs). -/
def pyEqO : List (String × Val) → List (String × Val) → Bool
  | [], [] => true
  | (k, x) :: xs, (j, y) :: ys => k == j && pyEq x y && pyEqO xs ys
  | _, _ => false
end

/-- Value of an unsigned decimal digit run. -/
def digitsVal (ds : List Char) : ℕ :=
  ds.foldl (fun a c => 10 * a + (c.toNat - 48)) 0

/-- Parse an unsigned decimal number `digits[.digits]` (at least one digit
somewhere), as accepted by Python's `float()`. -/
def parseUnsigned? (s : List Char) : Option ℚ :=
  let intPart := s.takeWhile (·.isDigit)
  let rest := s.drop intPart.length
  match rest with
  | [] => if intPart.isEmpty then none else some (digitsVal intPart)
  | '.' :: frac =>
      if frac.all (·.isDigit) && (!intPart.isEmpty || !frac.isEmpty) then
        some ((digitsVal intPart : ℚ) + (digitsVal frac : ℚ) / (10 ^ frac.length))
      else none
  | _ => none

/-- Parse a (possibly signed, space-padded) decimal string, modelling the
plain-decimal forms accepted by Python's `float(str)`. -/
def parseFloat? (s : String) : Option ℚ :=
  let t := ((s.data.dropWhile (· = ' ')).reverse.dropWhile (· = ' ')).reverse
  match t with
  | '-' :: rest => (parseUnsigned? rest).map (fun q => -q)
  | '+' :: rest => parseUnsigned? rest
  | _ => parseUnsigned? t

/-- Models Python `float(value)`: numbers pass through, booleans coerce to
1/0, decimal strings parse; anything else raises (→ `none`). -/
def pyFloat? : Val → Option ℚ
  | .num q => some q
  | .bool b => some (if b then 1 else 0)
  | .str s => parseFloat? s
  | _ => none

/-- Numeric reading of a value for an order comparison against a float:
numbers and bools compare numerically, anything else raises TypeError
(→ `none`).  Unlike `float()`, strings do NOT coerce here. -/
def cmpNum? : Val → Option ℚ
  | .num q => some q
  | .bool b => some (if b then 1 else 0)
  | _ => none

/-- Python `==` between a float and an arbitrary value (never raises):
true only against an equal number/bool. -/
def pyEqFloat (x : ℚ) : Val → Bool
  | .num q => x == q
  | .bool b => x == (if b then 1 else 0)
  | _ => false

/-- Scoring value read of a number-or-bool value (used where the source has
already ruled out other types). -/
def numOf : Val → ℚ
  | .num q => q
  | .bool b => if b then 1 else 0
  | _ => 0

/-- Models ScoringAgent._score_range_criterion: coerce the field value with
`float()` (uncoercible → 0.0); if `min == max` score 1.0 iff equal to `min`;
otherwise clamp below `min` to 0.0, above `max` to 1.0, and linearly
interpolate in between.  A TypeError from comparing against a non-numeric
min/max is caught by the source's `except` → 0.0. -/
def score_range_criterion (value : Val) (criterion : Obj) : ℚ :=
  match pyFloat? value with
  | none => 0
  | some numeric_value =>
    let min_val := objGetD criterion "min" (.num 0)
    let max_val := objGetD criterion "max" (.num 1)
    if pyEq min_val max_val then (if pyEqFloat numeric_value min_val then 1 else 0)
    else
      match cmpNum? min_val with
      | none => 0
      | some mn =>
        if numeric_value < mn then 0
        else
          match cmpNum? max_val with
          | none => 0
          | some mx =>
            if numeric_value > mx then 1
            else (numeric_value - mn) / (mx - mn)

/-- String rendering used by the source's `str(expected_value).lower()`
comparison; number rendering is abstracted (no verified claim compares a
string field against a numeric expected value). -/
def pyStr : Val → String
  | .bool b => if b then "True" else "False"
  | .str s => s
  | .null => "None"
  | _ => ""

/-- Models ScoringAgent._score_boolean_criterion: 1.0 iff the field equals
the expected value, with case-insensitive comparison when the field is a
string. -/
def score_boolean_criterion (value : Val) (criterion : Obj) : ℚ :=
  let expected_value := objGetD criterion "value" (.bool true)
  match value with
  | .bool b => if pyEq (.bool b) expected_value then 1 else 0
  | .str s => if (pyStr expected_value).data.map Char.toLower == s.data.map Char.toLower
      then 1 else 0
  | v => if pyEq v expected_value then 1 else 0

/-- Models ScoringAgent._score_generic_criterion: 1.0 for truthy-style
presence (positive number, nonblank string, nonempty list, True, any dict),
else 0.0. -/
def score_generic_criterion (value : Val) : ℚ :=
  match value with
  | .null => 0
  | .bool b => if b then 1 else 0
  | .num q => if q > 0 then 1 else 0
  | .str s => if s == "" then 0
      else if ((s.data.dropWhile (·.isWhitespace)).reverse.dropWhile (·.isWhitespace)).length > 0
      then 1 else 0
  | .arr xs => if xs.length > 0 then 1 else 0
  | .obj _ => 1

/-- Split a character list at every dot (Python `field.split(".")`),
accumulating the current segment in reverse. -/
def splitDotsAux : List Char → List Char → List String
  | acc, [] => [(⟨acc.reverse⟩ : String)]
  | acc, '.' :: rest => (⟨acc.reverse⟩ : String) :: splitDotsAux [] rest
  | acc, c :: rest => splitDotsAux (c :: acc) rest

/-- Dotted-path walk into nested dicts (`for part in parts: ...`). -/
def walkPath : Val → List String → Option Val
  | v, [] => some v
  | .obj fs, p :: rest =>
      match fs.lookup p with
      | some v => walkPath v rest
      | none => none
  | _, _ :: _ => none

/-- Models ScoringAgent._get_field_value: dot-path lookup into the lead for
dotted field names, plain `lead.get(field)` otherwise; missing → none. -/
def get_field_value (lead : Obj) (field : String) : Option Val :=
  if field.data.contains '.' then walkPath (.obj lead) (splitDotsAux [] field.data)
  else lead.lookup field

/-- Body of ScoringAgent._evaluate_criterion for a string `field`: resolve
the field (missing or None value → 0.0), then dispatch on the criterion
shape — range when both `min` and `max` are present, expected-value when
`value` is present, generic presence otherwise. -/
def evaluate_criterion_body (lead : Obj) (criterion : Obj) (field : String) : Except String ℚ :=
  match get_field_value lead field with
  | none => .ok 0
  | some .null => .ok 0
  | some field_value =>
    if objHas criterion "min" && objHas criterion "max" then
      .ok (score_range_criterion field_value criterion)
    else if objHas criterion "value" then
      .ok (score_boolean_criterion field_value criterion)
    else
      .ok (score_generic_criterion field_value)

/-- Models ScoringAgent._evaluate_criterion.  A non-string `field` raises
TypeError in the source's membership test on `field`. -/
def evaluate_criterion (lead : Obj) (criterion : Obj) : Except String ℚ :=
  match objGetD criterion "field" (.str "") with
  | .str field => evaluate_criterion_body lead criterion field
  | _ => .error "TypeError: argument of type is not iterable"

/-- Python order comparison `weight <= 0`: defined for numbers and bools,
TypeError for anything else. -/
def pyLe0? : Val → Except String Bool
  | .num q => .ok (q ≤ 0)
  | .bool b => .ok (b == false)
  | _ => .error "TypeError: comparison not supported"

/-- Breakdown key: the criterion's `field` (always a string by the time a
breakdown entry is written, since a non-string field raises earlier). -/
def breakdownKey : Val → String
  | .str s => s
  | _ => ""

/-- Models the criteria loop of ScoringAgent._score_single_lead: skip
criteria with a falsy `field` (short-circuit, before touching the weight) or
a weight `<= 0`; otherwise evaluate, record a breakdown entry, and add the
weighted contribution.  Returns (breakdown entries in order, raw total). -/
def score_criteria_fold (lead : Obj) : List Obj → Except String (List (String × Val) × ℚ)
  | [] => .ok ([], 0)
  | criterion :: rest => do
    let fieldV := objGetD criterion "field" (.str "")
    let weightV := objGetD criterion "weight" (.num 0)
    if !pyTruthy fieldV then score_criteria_fold lead rest
    else do
      let wle ← pyLe0? weightV
      if wle then score_criteria_fold lead rest
      else do
        let field_score ← evaluate_criterion lead criterion
        let weight := numOf weightV
        let (bd, t) ← score_criteria_fold lead rest
        .ok ((breakdownKey fieldV,
              .obj [("raw_score", .num field_score),
                    ("weight", .num weight),
                    ("weighted_score", .num (field_score * weight))]) :: bd,
             field_score * weight + t)

/-- Round-half-to-even of a rational to an integer (Python `round`). -/
def roundHalfEven (q : ℚ) : ℤ :=
  if q - ⌊q⌋ < 1/2 then ⌊q⌋
  else if q - ⌊q⌋ > 1/2 then ⌊q⌋ + 1
  else if ⌊q⌋ % 2 = 0 then ⌊q⌋ else ⌊q⌋ + 1

/-- Python `round(x, 2)` (decimal idealization of the float rounding). -/
def pyRound2 (q : ℚ) : ℚ := (roundHalfEven (q * 100) : ℚ) / 100

/-- Models ScoringAgent._score_single_lead: run the criteria fold and
package total (rounded to 2 places), breakdown and timestamp. -/
def score_single_lead (crits : List Obj) (lead : Obj) (ts : String) : Except String Obj := do
  let (score_breakdown, total_score) ← score_criteria_fold lead crits
  .ok [("total_score", .num (pyRound2 total_score)),
       ("score_breakdown", .obj score_breakdown),
       ("scored_at", .str ts)]

/-- Models ScoringAgent._get_default_criteria. -/
def get_default_criteria : List Obj :=
  [[("field", .str "company_size"), ("weight", .num (3/10)), ("min", .num 100), ("max", .num 1000)],
   [("field", .str "company_revenue"), ("weight", .num (1/4)), ("min", .num 20000000), ("max", .num 200000000)],
   [("field", .str "recent_funding"), ("weight", .num (1/5)), ("value", .bool true)],
   [("field", .str "hiring_sales"), ("weight", .num (3/20)), ("value", .bool true)],
   [("field", .str "is_corporate_email"), ("weight", .num (1/10)), ("value", .bool true)]]

/-- Models one iteration of the per-lead loop in ScoringAgent._execute_agent:
on success merge the score data into the lead; on an exception emit the lead
with total_score 0.0, empty breakdown and the error message. -/
def score_lead_entry (crits : List Obj) (ts : String) (lead : Obj) : Obj :=
  match score_single_lead crits lead ts with
  | .ok score_data => objMerge lead score_data
  | .error e => objMerge lead
      [("total_score", .num 0), ("score_breakdown", .obj []), ("scoring_error", .str e)]

/-- Models the whole per-lead loop (lines 54-76 of scoring_agent.py): one
output entry per input lead, in order. -/
def score_all_leads (crits : List Obj) (ts : String) (leads : List Obj) : List Obj :=
  leads.map (score_lead_entry crits ts)

/-- Sort key of the ranking step: `x.get("total_score", 0)` read as a number
(always a number for leads produced by the scoring loop). -/
def lead_sort_key (l : Obj) : ℚ := numOf (objGetD l "total_score" (.num 0))

/-- Models lines 78-84 of scoring_agent.py: stable sort by total_score
descending (Python's `sorted` is stable; modelled by insertion sort, which is
extensionally equal to every stable sort for this key), then attach
1-based `rank` and `percentile = (N - i) / N * 100`. -/
def rank_leads (scored_leads : List Obj) : List Obj :=
  let ranked := scored_leads.insertionSort (fun a b => lead_sort_key b ≤ lead_sort_key a)
  ranked.enum.map (fun p =>
    objSet (objSet p.2 "rank" (.num ((p.1 : ℚ) + 1)))
      "percentile" (.num (((ranked.length : ℚ) - (p.1 : ℚ)) / (ranked.length : ℚ) * 100)))

/-- Scoring loop followed by ranking: the ranked_leads output of
ScoringAgent._execute_agent. -/
def ranked_leads (crits : List Obj) (ts : String) (leads : List Obj) : List Obj :=
  rank_leads (score_all_leads crits ts leads)

/-! Environment-variable substitution (LangGraphBuilder._substitute_string /
_substitute_env_vars). -/

/-- Models the left-to-right scan of `re.sub` with pattern
`(two open braces)([^ closing brace ]+)(two closing braces)` from
_substitute_string: at each position a match is two open braces, a nonempty
run of characters other than the closing brace, then two closing braces; the
captured run is the variable name; a set variable substitutes its value, an
unset one leaves the whole match verbatim; otherwise the scan advances one
character. -/
def substChars (env : List (String × String)) : List Char → List Char
  | [] => []
  | '{' :: '{' :: rest =>
      let varName := rest.takeWhile (· ≠ '}')
      let after := rest.drop varName.length
      if varName.length > 0 && after.take 2 = ['}', '}'] then
        match env.lookup (⟨varName⟩ : String) with
        | some v => v.data ++ substChars env (after.drop 2)
        | none => '{' :: '{' :: (varName ++ '}' :: '}' :: substChars env (after.drop 2))
      else '{' :: substChars env ('{' :: rest)
  | c :: rest => c :: substChars env rest
termination_by l => l.length
decreasing_by
  all_goals simp only [List.length_cons, List.length_drop]
  all_goals omega

/-- Models LangGraphBuilder._substitute_string on a whole string. -/
def substitute_string (env : List (String × String)) (text : String) : String :=
  ⟨substChars env text.data⟩

mutual
/-- Models LangGraphBuilder._substitute_env_vars: string values get
placeholder substitution, dict values are processed recursively, every other
value passes through unchanged. -/
def substitute_env_vars (env : List (String × String)) : Obj → Obj
  | [] => []
  | (k, v) :: rest => (k, substitute_value env v) :: substitute_env_vars env rest

/-- Per-value dispatch of _substitute_env_vars. -/
def substitute_value (env : List (String × String)) : Val → Val
  | .str s => .str (substitute_string env s)
  | .obj fs => .obj (substitute_env_vars env fs)
  | v => v
end

/-- Reads a dict-valued entry as an Obj (tool configs are dicts). -/
def asObj : Val → Obj
  | .obj fs => fs
  | _ => []

/-- Models LangGraphBuilder._process_tools: substitute environment variables
in each tool's `config` sub-dict. -/
def process_tools (env : List (String × String)) (tools_config : List Obj) : List Obj :=
  tools_config.map (fun tool =>
    objSet tool "config" (.obj (substitute_env_vars env (asObj (objGetD tool "config" (.obj []))))))

/-! The workflow data model and the graph builder / execution engine
(langgraph_builder.py).  Behavior that the source delegates to the langgraph
library is modelled after that library's StateGraph semantics: `add_node`
raises on a duplicate node id, `compile()` validates that every added edge
ends at a known node and that an entry point is set (cycles are permitted),
and `invoke` runs node after node following the single outgoing edge of each
node until END, raising GraphRecursionError when the default recursion limit
of 25 steps is exceeded. -/

/-- Result of a capability unit's `execute` (models base_agent.AgentOutput). -/
structure AgentResult where
  success : Bool
  data : Obj
  error : Option String := none
  execution_time : Option ℚ := none

/-- One `execution_log` entry of the run state. -/
structure LogEntry where
  step_id : String
  timestamp : String
  success : Bool
  execution_time : Option ℚ

/-- One `errors` entry of the run state. -/
structure ErrorEntry where
  step_id : String
  error : Option String
  timestamp : String

/-- The threaded run state (models the WorkflowState TypedDict). -/
structure RunState where
  workflow_id : String
  start_time : String
  current_step : Option String
  execution_log : List LogEntry
  errors : List ErrorEntry
  results : List (String × Obj)
  end_time : Option String := none

/-- One step of the workflow specification. -/
structure Step where
  id : String
  agent : String
  instructions : String := ""
  tools : List Obj := []
  inputs : Obj := []
  next_steps : List String := []

/-- The workflow specification (steps plus the shared config mapping). -/
structure Workflow where
  steps : List Step
  config : Obj := []

/-- The capability registry of _create_agent: the known agent type names. -/
def agent_classes : List String :=
  ["ProspectSearchAgent", "DataEnrichmentAgent", "ScoringAgent", "OutreachContentAgent",
   "OutreachExecutorAgent", "ResponseTrackerAgent", "FeedbackTrainerAgent"]

/-- Node-adding phase of build_graph (_add_node over every step, in order):
a step without id or agent raises ValueError, an unknown agent type raises
ValueError from _create_agent, and langgraph's add_node raises on a
duplicate id.  Returns the node ids in insertion order. -/
def add_nodes : List Step → List String → Except String (List String)
  | [], acc => .ok acc
  | s :: rest, acc =>
    if s.id = "" || s.agent = "" then
      .error "Step must have id and agent fields"
    else if !agent_classes.contains s.agent then
      .error ("Unknown agent type: " ++ s.agent)
    else if acc.contains s.id then
      .error ("Node " ++ s.id ++ " already present")
    else add_nodes rest (acc ++ [s.id])

/-- Edge validation done by langgraph's compile(): every added edge must end
at a known node.  _add_edges adds exactly one edge per step — to the first
declared successor, or to END when next_steps is empty. -/
def edges_valid (nodes : List String) (steps : List Step) : Bool :=
  steps.all (fun s =>
    match s.next_steps.head? with
    | some t => nodes.contains t
    | none => true)

/-- Models build_graph: add all nodes (raising per _add_node/_create_agent/
add_node), then _add_edges (which raises IndexError reading the first step's
id when `steps` is empty), then compile()'s edge validation. -/
def build_graph (wf : Workflow) : Except String (List String) := do
  let nodes ← add_nodes wf.steps []
  match wf.steps.head? with
  | none => .error "IndexError: list index out of range"
  | some _ =>
    if edges_valid nodes wf.steps then .ok nodes
    else .error "Found edge ending at unknown node"

/-- First step with the given id (node bodies and _prepare_node_input both
look steps up by id). -/
def find_step (wf : Workflow) (i : String) : Option Step :=
  wf.steps.find? (fun s => s.id = i)

/-- The sequence of node ids the compiled graph will run: follow each node's
single outgoing edge from the entry point until END, consuming one unit of
the recursion limit per node (langgraph default 25). -/
def plan_from (wf : Workflow) : ℕ → Option String → Except String (List String)
  | _, none => .ok []
  | 0, some _ => .error "GraphRecursionError: recursion limit of 25 reached"
  | fuel + 1, some i =>
    match find_step wf i with
    | none => .error ("unknown node " ++ i)
    | some s => do
        let rest ← plan_from wf fuel s.next_steps.head?
        .ok (i :: rest)

/-- Execution order of the compiled graph, from the entry point (the first
declared step's id). -/
def plan_of (wf : Workflow) : Except String (List String) :=
  plan_from wf 25 (wf.steps.head?.map (fun s => s.id))

/-! Input resolution (_prepare_node_input) and node execution
(_create_node_function's node_function). -/

/-- Check of `value.startswith` / `value.endswith` against the two-brace
delimiters in _prepare_node_input. -/
def isRefString (s : List Char) : Bool :=
  (s.take 2 = ['{', '{']) && (s.reverse.take 2 = ['}', '}'])

/-- The characters strictly between the outer brace pairs (`value[2:-2]`). -/
def refBody (s : List Char) : List Char :=
  ((s.drop 2).dropLast).dropLast

/-- Models the step-output branch of _prepare_node_input: a reference with a
dot is split once into step id and output key and looked up in
`state["results"]` (missing step or missing key → None); a dotless reference
yields the step's whole results payload (or None). -/
def resolve_reference (results : List (String × Obj)) (reference : List Char) : Val :=
  let pre := reference.takeWhile (· ≠ '.')
  let post := reference.dropWhile (· ≠ '.')
  match post with
  | [] =>
      match results.lookup (⟨pre⟩ : String) with
      | some payload => .obj payload
      | none => .null
  | _ :: key =>
      match results.lookup (⟨pre⟩ : String) with
      | some payload => objGetD payload (⟨key⟩ : String) .null
      | none => .null

/-- Read of `.get(k, default)` on a value expected to be a sub-dict. -/
def subGet (v : Val) (k : String) (d : Val) : Val :=
  match v with
  | .obj fs => objGetD fs k d
  | _ => d

/-- Models the per-binding dispatch of _prepare_node_input, including the
source's later `elif` branches for the three fixed config placeholders.
Any string framed by the two-brace delimiters is taken by the first branch,
so those `elif` branches are unreachable. -/
def resolve_input_value (wf : Workflow) (results : List (String × Obj)) (v : Val) : Val :=
  match v with
  | .str s =>
    if isRefString s.data then
      resolve_reference results (refBody s.data)
    else if s = "\x7b\x7bconfig.scoring\x7d\x7d" then
      objGetD wf.config "scoring" (.obj [])
    else if s = "\x7b\x7bconfig.outreach.persona\x7d\x7d" then
      subGet (objGetD wf.config "outreach" (.obj [])) "persona" (.str "SDR")
    else if s = "\x7b\x7bconfig.outreach.tone\x7d\x7d" then
      subGet (objGetD wf.config "outreach" (.obj [])) "tone" (.str "friendly")
    else v
  | _ => v

/-- Models _prepare_node_input: find the step's configuration (ValueError if
absent) and resolve each input binding in order. -/
def prepare_node_input (wf : Workflow) (results : List (String × Obj)) (step_id : String) :
    Except String Obj :=
  match find_step wf step_id with
  | none => .error ("Step configuration not found: " ++ step_id)
  | some step_config =>
      .ok (step_config.inputs.map (fun kv => (kv.1, resolve_input_value wf results kv.2)))

/-- A capability unit at the engine boundary: the step's `agent.execute`,
which either returns an AgentResult or raises. -/
abbrev UnitExec := Obj → Except String AgentResult

/-- Results-map write `{**state["results"], step_id: data}`. -/
def setResult (rs : List (String × Obj)) (k : String) (v : Obj) : List (String × Obj) :=
  match rs with
  | [] => [(k, v)]
  | (k', v') :: rest => if k' = k then (k, v) :: rest else (k', v') :: setResult rest k v

/-- Models node_function (langgraph_builder.py lines 278-322): inside the
`try`, resolve the input and run the unit; on a returned result append one
execution_log entry carrying the result's success flag, then either record
the step's data in `results` (success) or append one `errors` entry
(failure); if resolution or the unit raises, the `except` appends one
`errors` entry only and returns the state otherwise unchanged. -/
def node_function (wf : Workflow) (unit : UnitExec) (step_id : String) (ts : String)
    (state : RunState) : RunState :=
  match (prepare_node_input wf state.results step_id).bind unit with
  | .ok result =>
      let st : RunState := { state with
        current_step := some step_id,
        execution_log := state.execution_log ++
          [({ step_id := step_id, timestamp := ts, success := result.success,
              execution_time := result.execution_time } : LogEntry)] }
      if result.success then
        { st with results := setResult st.results step_id result.data }
      else
        { st with errors := state.errors ++
            [({ step_id := step_id, error := result.error, timestamp := ts } : ErrorEntry)] }
  | .error e =>
      { state with errors := state.errors ++
          [({ step_id := step_id, error := some e, timestamp := ts } : ErrorEntry)] }

/-- Node-by-node execution of the compiled plan (the sequential invoke). -/
def run_steps (wf : Workflow) (units : String → UnitExec) (ts : String)
    (state : RunState) : List String → RunState
  | [] => state
  | i :: rest => run_steps wf units ts (node_function wf (units i) i ts state) rest

/-- Models _create_initial_state (id and clock abstracted to parameters). -/
def create_initial_state (run_id ts : String) : RunState :=
  { workflow_id := run_id, start_time := ts, current_step := none,
    execution_log := [], errors := [], results := [], end_time := none }

/-- Models execute_workflow: build the graph (raising on structural
problems), run the plan from the entry point, and return the final state
with completion metadata.  Exceptions escaping graph construction or the
invoke (only possible before any node runs or from the recursion limit) are
re-raised by the source's except clause. -/
def execute_workflow (wf : Workflow) (units : String → UnitExec) (run_id ts : String) :
    Except String RunState := do
  let _ ← build_graph wf
  let plan ← plan_of wf
  let final := run_steps wf units ts (create_initial_state run_id ts) plan
  .ok { final with end_time := some ts }

/-- Inclusion test of the criteria loop: truthy `field` and a weight that
passes the `weight <= 0` comparison as false (the criteria counted toward
the reachable total). -/
def criterion_included (c : Obj) : Bool :=
  pyTruthy (objGetD c "field" (.str "")) &&
    (match pyLe0? (objGetD c "weight" (.num 0)) with
     | .ok b => !b
     | .error _ => false)

/-- Numeric weight of a criterion. -/
def criterion_weight (c : Obj) : ℚ :=
  numOf (objGetD c "weight" (.num 0))

/-! Theorems.  The first few lemmas are shared computation helpers for
association-list lookups and the Except monad. -/

/-- Lookup on a cons cell as an if-then-else (helper for evaluation). -/
theorem lookup_cons_ite {α : Type} (k a : String) (v : α) (l : List (String × α)) :
    List.lookup k ((a, v) :: l) = if k = a then some v else List.lookup k l := by
  cases h : k == a with
  | true => rw [if_pos (by simpa [beq_iff_eq] using h)]; simp [List.lookup, h]
  | false => rw [if_neg (by simpa [beq_iff_eq] using h)]; simp [List.lookup, h]

/-- Bind of a success value in the Except monad (helper). -/
theorem except_bind_ok {α β : Type} (a : α) (f : α → Except String β) :
    ((Except.ok a : Except String α) >>= f) = f a := rfl

/-- Bind of an error in the Except monad (helper). -/
theorem except_bind_err {α β : Type} (e : String) (f : α → Except String β) :
    ((Except.error e : Except String α) >>= f) = Except.error e := rfl

/-- Pure of the Except monad (helper). -/
theorem except_pure_eq {α : Type} (a : α) :
    (pure a : Except String α) = Except.ok a := rfl

/-- C6: for every record and range criterion with numeric `min` and `max`
present, the criterion score is degenerate-equality when `min = max`, and
otherwise clamped-linear in the coerced field value (0 below `min`, 1 above
`max`, linear in between); an uncoercible field value scores 0.  In
particular with min 100, max 1000, weight 1 the weighted contributions for
field values 550, 50 and 1500 are 1/2, 0 and 1. -/
theorem range_criterion_clamped_linear (c : Obj) (mn mx : ℚ) (v : Val)
    (hmin : c.lookup "min" = some (.num mn)) (hmax : c.lookup "max" = some (.num mx)) :
    (∀ x, pyFloat? v = some x →
      score_range_criterion v c =
        if mn = mx then (if x = mn then 1 else 0)
        else if x < mn then 0
        else if x > mx then 1
        else (x - mn) / (mx - mn))
    ∧ (pyFloat? v = none → score_range_criterion v c = 0)
    ∧ (score_criteria_fold [("company_size", Val.num 550)]
        [[("field", .str "company_size"), ("weight", .num 1), ("min", .num 100), ("max", .num 1000)]]
        = .ok ([("company_size",
            .obj [("raw_score", .num (1/2)), ("weight", .num 1), ("weighted_score", .num (1/2))])],
          1/2))
    ∧ (score_criteria_fold [("company_size", Val.num 50)]
        [[("field", .str "company_size"), ("weight", .num 1), ("min", .num 100), ("max", .num 1000)]]
        = .ok ([("company_size",
            .obj [("raw_score", .num 0), ("weight", .num 1), ("weighted_score", .num 0)])],
          0))
    ∧ (score_criteria_fold [("company_size", Val.num 1500)]
        [[("field", .str "company_size"), ("weight", .num 1), ("min", .num 100), ("max", .num 1000)]]
        = .ok ([("company_size",
            .obj [("raw_score", .num 1), ("weight", .num 1), ("weighted_score", .num 1)])],
          1)) := by
  refine ⟨?_, ?_, ?_, ?_, ?_⟩
  · intro x hx
    simp only [score_range_criterion, hx, objGetD, hmin, hmax, Option.getD_some,
      pyEq, pyEqFloat, cmpNum?, beq_iff_eq]
  · intro hx
    simp only [score_range_criterion, hx]
  · norm_num +decide [score_criteria_fold, evaluate_criterion, evaluate_criterion_body, score_range_criterion,
      objGetD, objHas, get_field_value, pyTruthy, pyLe0?, pyFloat?, cmpNum?, pyEq, pyEqFloat,
      numOf, breakdownKey, lookup_cons_ite, except_bind_ok, except_bind_err, except_pure_eq]
  · norm_num +decide [score_criteria_fold, evaluate_criterion, evaluate_criterion_body, score_range_criterion,
      objGetD, objHas, get_field_value, pyTruthy, pyLe0?, pyFloat?, cmpNum?, pyEq, pyEqFloat,
      numOf, breakdownKey, lookup_cons_ite, except_bind_ok, except_bind_err, except_pure_eq]
  · norm_num +decide [score_criteria_fold, evaluate_criterion, evaluate_criterion_body, score_range_criterion,
      objGetD, objHas, get_field_value, pyTruthy, pyLe0?, pyFloat?, cmpNum?, pyEq, pyEqFloat,
      numOf, breakdownKey, lookup_cons_ite, except_bind_ok, except_bind_err, except_pure_eq]

/-- Witness for C6 at a concrete criterion and field value. -/
theorem range_criterion_clamped_linear_witness :
    score_range_criterion (.num 550) [("min", .num 100), ("max", .num 1000)] = 1/2 := by
  have h := (range_criterion_clamped_linear [("min", .num 100), ("max", .num 1000)]
    100 1000 (.num 550) (by rfl) (by rfl)).1 550 (by rfl)
  rw [h]; norm_num

/-- Scanning past a character that cannot open a placeholder (helper). -/
theorem substChars_cons_ne (env : List (String × String)) (c : Char) (t : List Char)
    (hc : c ≠ '{') : substChars env (c :: t) = c :: substChars env t := by
  rw [substChars.eq_def]
  split
  · simp_all
  · simp_all
  · rename_i heq
    simp_all

/-- The scan of the empty character list (helper). -/
theorem substChars_nil (env : List (String × String)) : substChars env [] = [] := by
  rw [substChars.eq_def]

/-- takeWhile collects exactly the stop-free prefix (helper). -/
theorem takeWhile_no_stop_append {v w : List Char} (hv : ∀ c ∈ v, c ≠ '}') :
    (v ++ '}' :: w).takeWhile (· ≠ '}') = v := by
  induction v with
  | nil => simp [List.takeWhile]
  | cons c cs ih =>
      simp only [List.cons_append, List.takeWhile_cons]
      rw [if_pos (by simpa using hv c (by simp))]
      simp_all

/-- A placeholder at the head of the scan is matched whole: the variable name
is the brace-free run, and the scan resumes after the closing pair (helper). -/
theorem substChars_hit (env : List (String × String)) (v r : List Char)
    (hv : v ≠ []) (hnb : ∀ c ∈ v, c ≠ '}') :
    substChars env ('{' :: '{' :: (v ++ '}' :: '}' :: r)) =
      match env.lookup (⟨v⟩ : String) with
      | some x => x.data ++ substChars env r
      | none => '{' :: '{' :: (v ++ '}' :: '}' :: substChars env r) := by
  rw [substChars.eq_def]
  split
  · simp_all
  · rename_i rest heq
    obtain ⟨rfl⟩ : rest = v ++ '}' :: '}' :: r := by simp_all
    have h1 : (v ++ '}' :: '}' :: r).takeWhile (· ≠ '}') = v := takeWhile_no_stop_append hnb
    have h2 : (v ++ '}' :: '}' :: r).drop v.length = '}' :: '}' :: r := by
      simp [List.drop_left]
    have h3 : ('}' :: '}' :: r).take 2 = ['}', '}'] := rfl
    have h4 : ('}' :: '}' :: r).drop 2 = r := rfl
    simp only [h1, h2, h3, h4]
    rw [if_pos (by simp [List.length_pos.mpr hv])]
  · rename_i hno heq
    injection heq with e1 e2
    subst e1
    subst e2
    exact (hno (v ++ '}' :: '}' :: r) rfl rfl).elim

/-- The scan distributes over a brace-free prefix (helper). -/
theorem substChars_append_no_brace (env : List (String × String)) (a t : List Char)
    (ha : ∀ c ∈ a, c ≠ '{') :
    substChars env (a ++ t) = a ++ substChars env t := by
  induction a with
  | nil => simp
  | cons c cs ih =>
      rw [List.cons_append, substChars_cons_ne env c _ (ha c (by simp))]
      simp only [List.cons_append, List.cons.injEq, true_and]
      exact ih (fun x hx => ha x (by simp [hx]))

/-- C10: in tool-configuration processing, a `(VAR_NAME in double braces)`
occurrence in a string config value is replaced by the environment variable's
value when the variable is set, and is left verbatim (not emptied, not
nulled, no error) when it is unset; brace-free strings and non-string scalar
values pass through unchanged. -/
theorem env_substitution_spec (env : List (String × String)) :
    (∀ (a v rest : List Char) (x : String),
        v ≠ [] → (∀ c ∈ v, c ≠ '}') → (∀ c ∈ a, c ≠ '{') →
        env.lookup (⟨v⟩ : String) = some x →
        substChars env (a ++ '{' :: '{' :: (v ++ '}' :: '}' :: rest)) =
          a ++ x.data ++ substChars env rest)
    ∧ (∀ (a v rest : List Char),
        v ≠ [] → (∀ c ∈ v, c ≠ '}') → (∀ c ∈ a, c ≠ '{') →
        env.lookup (⟨v⟩ : String) = none →
        substChars env (a ++ '{' :: '{' :: (v ++ '}' :: '}' :: rest)) =
          a ++ '{' :: '{' :: (v ++ '}' :: '}' :: substChars env rest))
    ∧ (∀ s : List Char, (∀ c ∈ s, c ≠ '{') → substChars env s = s)
    ∧ (∀ v : Val, (∀ s, v ≠ Val.str s) → (∀ o, v ≠ Val.obj o) →
        substitute_value env v = v) := by
  refine ⟨?_, ?_, ?_, ?_⟩
  · intro a v rest x hv hnb ha hx
    rw [substChars_append_no_brace env a _ ha, substChars_hit env v rest hv hnb, hx,
      List.append_assoc]
  · intro a v rest hv hnb ha hx
    rw [substChars_append_no_brace env a _ ha, substChars_hit env v rest hv hnb, hx]
  · intro s hs
    have h := substChars_append_no_brace env s [] hs
    simpa [substChars_nil] using h
  · intro v hs ho
    cases v with
    | str s => exact (hs s rfl).elim
    | obj o => exact (ho o rfl).elim
    | null => rfl
    | bool b => rfl
    | num q => rfl
    | arr xs => rfl

/-- Witness for C10: one set variable, one unset variable, one non-string
value, evaluated concretely. -/
theorem env_substitution_spec_witness :
    substitute_string [("API_KEY", "sk-123")] "x=\x7b\x7bAPI_KEY\x7d\x7d" = "x=sk-123"
    ∧ substitute_string [("API_KEY", "sk-123")] "\x7b\x7bMISSING\x7d\x7d" = "\x7b\x7bMISSING\x7d\x7d"
    ∧ substitute_value [("API_KEY", "sk-123")] (.num 5) = .num 5 := by
  refine ⟨?_, ?_, ?_⟩
  · have h := (env_substitution_spec [("API_KEY", "sk-123")]).1 "x=".data "API_KEY".data []
      "sk-123" (by decide) (by decide) (by decide) (by decide)
    have hdata : "x=\x7b\x7bAPI_KEY\x7d\x7d".data =
        "x=".data ++ '{' :: '{' :: ("API_KEY".data ++ '}' :: '}' :: ([] : List Char)) := by decide
    rw [substitute_string, hdata, h, substChars_nil]
    decide
  · have h := (env_substitution_spec [("API_KEY", "sk-123")]).2.1 [] "MISSING".data []
      (by decide) (by decide) (by decide) (by decide)
    have hdata : "\x7b\x7bMISSING\x7d\x7d".data =
        [] ++ '{' :: '{' :: ("MISSING".data ++ '}' :: '}' :: ([] : List Char)) := by decide
    rw [substitute_string, hdata, h, substChars_nil]
    decide
  · exact (env_substitution_spec [("API_KEY", "sk-123")]).2.2.2 (.num 5)
      (fun s => by simp) (fun o => by simp)

/-- takeWhile collects exactly the prefix before a stop character (helper). -/
theorem takeWhile_append_stop (st : Char) {v w : List Char} (hv : ∀ c ∈ v, c ≠ st) :
    (v ++ st :: w).takeWhile (· ≠ st) = v := by
  induction v with
  | nil => simp [List.takeWhile]
  | cons c cs ih =>
      simp only [List.cons_append, List.takeWhile_cons]
      rw [if_pos (by simpa using hv c (by simp))]
      simp_all

/-- dropWhile stops exactly at the first stop character (helper). -/
theorem dropWhile_append_stop (st : Char) {v w : List Char} (hv : ∀ c ∈ v, c ≠ st) :
    (v ++ st :: w).dropWhile (· ≠ st) = st :: w := by
  induction v with
  | nil => simp [List.dropWhile]
  | cons c cs ih =>
      simp only [List.cons_append, List.dropWhile_cons]
      rw [if_pos (by simpa using hv c (by simp))]
      exact ih (fun x hx => hv x (by simp [hx]))

/-- takeWhile of a stop-free list is the whole list (helper). -/
theorem takeWhile_eq_self_no_stop (st : Char) {v : List Char} (hv : ∀ c ∈ v, c ≠ st) :
    v.takeWhile (· ≠ st) = v := by
  induction v with
  | nil => simp
  | cons c cs ih =>
      simp only [List.takeWhile_cons]
      rw [if_pos (by simpa using hv c (by simp))]
      simp_all

/-- dropWhile of a stop-free list is empty (helper). -/
theorem dropWhile_eq_nil_no_stop (st : Char) {v : List Char} (hv : ∀ c ∈ v, c ≠ st) :
    v.dropWhile (· ≠ st) = [] := by
  induction v with
  | nil => simp
  | cons c cs ih =>
      simp only [List.dropWhile_cons]
      rw [if_pos (by simpa using hv c (by simp))]
      exact ih (fun x hx => hv x (by simp [hx]))

/-- A string framed by the two-brace delimiters always takes the
step-reference branch of _prepare_node_input (helper). -/
theorem resolve_framed (wf : Workflow) (results : List (String × Obj)) (mid : List Char) :
    resolve_input_value wf results (.str ⟨'{' :: '{' :: (mid ++ ['}', '}'])⟩) =
      resolve_reference results mid := by
  have h1 : isRefString ('{' :: '{' :: (mid ++ ['}', '}'])) = true := by
    simp [isRefString, List.reverse_append]
  have h2 : refBody ('{' :: '{' :: (mid ++ ['}', '}'])) = mid := by
    show ((mid ++ ['}', '}']).dropLast).dropLast = mid
    rw [show mid ++ ['}', '}'] = (mid ++ ['}']) ++ ['}'] by simp,
      List.dropLast_concat, List.dropLast_concat]
  have hd : (String.mk ('{' :: '{' :: (mid ++ ['}', '}']))).data
      = '{' :: '{' :: (mid ++ ['}', '}']) := rfl
  simp only [resolve_input_value, hd, h1, if_true, h2]

/-- C5: a binding `(step_id.output_key in double braces)` resolves to
`results[step_id][output_key]` when both exist and to null when the step has
no recorded results or lacks the key; a dotless `(step_id in double braces)`
binding resolves to the whole payload or null; resolution never raises when
the step exists in the spec, and a step whose binding refers to a missing
upstream result still executes, receiving null for that binding. -/
theorem step_reference_lenient_resolution (results : List (String × Obj)) (wf : Workflow)
    (sid key : String) (hsid : ∀ c ∈ sid.data, c ≠ '.') :
    (resolve_input_value wf results (.str ("\x7b\x7b" ++ sid ++ "." ++ key ++ "\x7d\x7d")) =
      match results.lookup sid with
      | some payload => objGetD payload key .null
      | none => .null)
    ∧ (resolve_input_value wf results (.str ("\x7b\x7b" ++ sid ++ "\x7d\x7d")) =
      match results.lookup sid with
      | some payload => .obj payload
      | none => .null)
    ∧ (∀ (step_id : String) (st : Step), find_step wf step_id = some st →
        prepare_node_input wf results step_id =
          .ok (st.inputs.map (fun kv => (kv.1, resolve_input_value wf results kv.2))))
    ∧ (node_function
        { steps := [{ id := "step2", agent := "ScoringAgent",
                      inputs := [("leads", .str "\x7b\x7bstep1.leads\x7d\x7d")] }], config := [] }
        (fun inp => .ok { success := true, data := [("echo", .obj inp)] })
        "step2" "t0" (create_initial_state "r0" "t0")
        = { workflow_id := "r0", start_time := "t0", current_step := some "step2",
            execution_log := [{ step_id := "step2", timestamp := "t0", success := true,
                                execution_time := none }],
            errors := [], results := [("step2", [("echo", .obj [("leads", .null)])])],
            end_time := none }) := by
  refine ⟨?_, ?_, ?_, ?_⟩
  · have hs : ("\x7b\x7b" ++ sid ++ "." ++ key ++ "\x7d\x7d") =
        (⟨'{' :: '{' :: ((sid.data ++ '.' :: key.data) ++ ['}', '}'])⟩ : String) := by
      apply String.ext
      simp [String.data_append]
    rw [hs, resolve_framed]
    show resolve_reference results (sid.data ++ '.' :: key.data) = _
    rw [resolve_reference]
    rw [takeWhile_append_stop '.' hsid, dropWhile_append_stop '.' hsid]
  · have hs : ("\x7b\x7b" ++ sid ++ "\x7d\x7d") =
        (⟨'{' :: '{' :: (sid.data ++ ['}', '}'])⟩ : String) := by
      apply String.ext
      simp [String.data_append]
    rw [hs, resolve_framed]
    rw [resolve_reference]
    rw [takeWhile_eq_self_no_stop '.' hsid, dropWhile_eq_nil_no_stop '.' hsid]
  · intro step_id st h
    simp [prepare_node_input, h]
  · rfl

/-- Witness for C5: a two-entry results map, hitting the present-key, the
missing-key and the missing-step cases. -/
theorem step_reference_lenient_resolution_witness :
    resolve_input_value { steps := [], config := [] } [("step1", [("leads", .arr [.num 7])])]
      (.str ("\x7b\x7b" ++ "step1" ++ "." ++ "leads" ++ "\x7d\x7d")) = .arr [.num 7]
    ∧ resolve_input_value { steps := [], config := [] } [("step1", [("leads", .arr [.num 7])])]
      (.str ("\x7b\x7b" ++ "step1" ++ "." ++ "emails" ++ "\x7d\x7d")) = .null
    ∧ resolve_input_value { steps := [], config := [] } [("step1", [("leads", .arr [.num 7])])]
      (.str ("\x7b\x7b" ++ "ghost" ++ "." ++ "leads" ++ "\x7d\x7d")) = .null := by
  refine ⟨?_, ?_, ?_⟩
  · rw [(step_reference_lenient_resolution [("step1", [("leads", .arr [.num 7])])]
      { steps := [], config := [] } "step1" "leads" (by decide)).1]
    rfl
  · rw [(step_reference_lenient_resolution [("step1", [("leads", .arr [.num 7])])]
      { steps := [], config := [] } "step1" "emails" (by decide)).1]
    rfl
  · rw [(step_reference_lenient_resolution [("step1", [("leads", .arr [.num 7])])]
      { steps := [], config := [] } "ghost" "leads" (by decide)).1]
    rfl

/-- C4 (code-bug evidence): the binding value `(config.scoring in double
braces)` is captured by the general step-reference branch of
_prepare_node_input (it is framed by the two-brace delimiters), so it is
split into step id `config` and key `scoring` and looked up in the
step-results map — resolving to null when no step named `config` has run —
while the source's own dedicated (but unreachable) `elif` branch would have
returned the `scoring` sub-mapping of the workflow config. -/
theorem config_scoring_placeholder_resolves_to_null :
    prepare_node_input
      { steps := [{ id := "score", agent := "ScoringAgent",
                    inputs := [("scoring_criteria", .str "\x7b\x7bconfig.scoring\x7d\x7d")] }],
        config := [("scoring", .obj [("criteria", .arr [])])] }
      [] "score"
      = .ok [("scoring_criteria", Val.null)]
    ∧ objGetD [("scoring", .obj [("criteria", .arr [])])] "scoring" (.obj [])
      = .obj [("criteria", .arr [])]
    ∧ Val.null ≠ .obj [("criteria", .arr [])] :=
  ⟨rfl, rfl, fun h => Val.noConfusion h⟩

/-- Lookup after a same-key dict write (helper). -/
theorem lookup_objSet (o : Obj) (k : String) (v : Val) :
    (objSet o k v).lookup k = some v := by
  induction o with
  | nil =>
      rw [objSet, lookup_cons_ite, if_pos rfl]
  | cons kv rest ih =>
      obtain ⟨k', v'⟩ := kv
      by_cases h : k' = k
      · subst h
        rw [objSet, if_pos rfl, lookup_cons_ite, if_pos rfl]
      · rw [objSet, if_neg h, lookup_cons_ite, if_neg (fun hk => h hk.symm)]
        exact ih

/-- Lookup after a different-key dict write (helper). -/
theorem lookup_objSet_ne (o : Obj) (k k' : String) (v : Val) (h : k' ≠ k) :
    (objSet o k v).lookup k' = o.lookup k' := by
  induction o with
  | nil =>
      rw [objSet, lookup_cons_ite, if_neg h]
  | cons kv rest ih =>
      obtain ⟨a, b⟩ := kv
      by_cases ha : a = k
      · subst ha
        rw [objSet, if_pos rfl, lookup_cons_ite, lookup_cons_ite, if_neg h, if_neg h]
      · rw [objSet, if_neg ha, lookup_cons_ite, lookup_cons_ite]
        by_cases hk : k' = a
        · rw [if_pos hk, if_pos hk]
        · rw [if_neg hk, if_neg hk]
          exact ih

/-- C8: an exception while scoring one record does not abort the rest of the
batch: the loop output decomposes pointwise, the failing record is emitted
with total_score 0.0, an empty breakdown and the error message attached, and
every other record's entry is exactly what it would be in any batch. -/
theorem scoring_record_failure_isolated (crits : List Obj) (ts : String)
    (xs ys : List Obj) (bad : Obj) (e : String)
    (hbad : score_single_lead crits bad ts = .error e) :
    score_all_leads crits ts (xs ++ bad :: ys)
      = score_all_leads crits ts xs
        ++ objMerge bad [("total_score", .num 0), ("score_breakdown", .obj []),
            ("scoring_error", .str e)]
        :: score_all_leads crits ts ys
    ∧ objGetD (score_lead_entry crits ts bad) "total_score" .null = .num 0
    ∧ objGetD (score_lead_entry crits ts bad) "score_breakdown" .null = .obj []
    ∧ objGetD (score_lead_entry crits ts bad) "scoring_error" .null = .str e := by
  have hentry : score_lead_entry crits ts bad
      = objMerge bad [("total_score", .num 0), ("score_breakdown", .obj []),
          ("scoring_error", .str e)] := by
    simp [score_lead_entry, hbad]
  have hmerge : objMerge bad [("total_score", .num 0), ("score_breakdown", .obj []),
      ("scoring_error", .str e)]
      = objSet (objSet (objSet bad "total_score" (.num 0)) "score_breakdown" (.obj []))
          "scoring_error" (.str e) := rfl
  refine ⟨?_, ?_, ?_, ?_⟩
  · simp [score_all_leads, hentry]
  · rw [hentry, hmerge, objGetD, lookup_objSet_ne _ _ _ _ (by decide),
      lookup_objSet_ne _ _ _ _ (by decide), lookup_objSet]
    rfl
  · rw [hentry, hmerge, objGetD, lookup_objSet_ne _ _ _ _ (by decide), lookup_objSet]
    rfl
  · rw [hentry, hmerge, objGetD, lookup_objSet]
    rfl

/-- Witness for C8: a criterion whose weight is None makes every record
raise in the comparison `weight <= 0`; the batch still emits one entry per
record, with the error attached. -/
theorem scoring_record_failure_isolated_witness :
    score_all_leads [[("field", .str "x"), ("weight", Val.null)]] "t"
        ([[("a", .num 1)]] ++ [("x", .num 1)] :: [])
      = score_all_leads [[("field", .str "x"), ("weight", Val.null)]] "t" [[("a", .num 1)]]
        ++ objMerge [("x", .num 1)]
            [("total_score", .num 0), ("score_breakdown", .obj []),
             ("scoring_error", .str "TypeError: comparison not supported")]
        :: [] := by
  exact (scoring_record_failure_isolated [[("field", .str "x"), ("weight", Val.null)]] "t"
    [[("a", .num 1)]] [] [("x", .num 1)] "TypeError: comparison not supported" rfl).1


/-- Range-criterion scores stay inside the unit interval (helper). -/
theorem score_range_criterion_mem_unit (v : Val) (c : Obj) :
    0 ≤ score_range_criterion v c ∧ score_range_criterion v c ≤ 1 := by
  rw [score_range_criterion]
  rcases hx : pyFloat? v with _ | x
  · norm_num
  · simp only
    by_cases h1 : pyEq (objGetD c "min" (.num 0)) (objGetD c "max" (.num 1))
    · rw [if_pos h1]
      split_ifs <;> norm_num
    · rw [if_neg h1]
      rcases hmn : cmpNum? (objGetD c "min" (.num 0)) with _ | mn
      · norm_num
      · simp only
        by_cases h2 : x < mn
        · rw [if_pos h2]; norm_num
        · rw [if_neg h2]
          rcases hmx : cmpNum? (objGetD c "max" (.num 1)) with _ | mx
          · norm_num
          · simp only
            by_cases h3 : x > mx
            · rw [if_pos h3]; norm_num
            · rw [if_neg h3]
              have hne : mn ≠ mx := by
                rcases ha : objGetD c "min" (.num 0) with _ | b | q | s | xs | fs <;>
                  rcases hb : objGetD c "max" (.num 1) with _ | b' | q' | s' | ys | gs <;>
                    rw [ha] at hmn h1 <;> rw [hb] at hmx h1 <;>
                      simp_all [cmpNum?, pyEq]
                all_goals split_ifs at * <;> simp_all
                all_goals (intro hEq; linarith)
              have hlt : mn < mx := lt_of_le_of_ne (le_trans (not_lt.mp h2) (not_lt.mp h3)) hne
              constructor
              · apply div_nonneg <;> linarith
              · rw [div_le_one (by linarith)]
                linarith

/-- Expected-value criterion scores are 0 or 1 (helper). -/
theorem score_boolean_criterion_mem_unit (v : Val) (c : Obj) :
    0 ≤ score_boolean_criterion v c ∧ score_boolean_criterion v c ≤ 1 := by
  cases v <;> simp only [score_boolean_criterion] <;> split_ifs <;> norm_num

/-- Presence criterion scores are 0 or 1 (helper). -/
theorem score_generic_criterion_mem_unit (v : Val) :
    0 ≤ score_generic_criterion v ∧ score_generic_criterion v ≤ 1 := by
  cases v <;> simp only [score_generic_criterion] <;>
    first
      | (split_ifs <;> norm_num)
      | norm_num

/-- Any raw criterion score produced by the dispatch body lies in [0,1]
(helper). -/
theorem evaluate_criterion_body_mem_unit (lead : Obj) (c : Obj) (f : String) (s : ℚ)
    (h : evaluate_criterion_body lead c f = .ok s) : 0 ≤ s ∧ s ≤ 1 := by
  rw [evaluate_criterion_body] at h
  split at h
  · injection h with h2
    subst h2
    norm_num
  · injection h with h2
    subst h2
    norm_num
  · split_ifs at h
    · injection h with h2
      subst h2
      exact score_range_criterion_mem_unit _ c
    · injection h with h2
      subst h2
      exact score_boolean_criterion_mem_unit _ c
    · injection h with h2
      subst h2
      exact score_generic_criterion_mem_unit _

/-- Any raw criterion score produced by _evaluate_criterion lies in [0,1]
(helper). -/
theorem evaluate_criterion_mem_unit (lead : Obj) (c : Obj) (s : ℚ)
    (h : evaluate_criterion lead c = .ok s) : 0 ≤ s ∧ s ≤ 1 := by
  rw [evaluate_criterion] at h
  split at h
  · exact evaluate_criterion_body_mem_unit lead c _ s h
  · exact absurd h (by simp)

/-- A weight that compares `<= 0` as false is numerically positive (helper). -/
theorem pyLe0_false_weight_pos (w : Val) (h : pyLe0? w = .ok false) : 0 < numOf w := by
  cases w <;> simp_all [pyLe0?, numOf]

/-- Bounds on the raw (pre-rounding) total of the criteria loop (helper):
nonnegative, and at most the summed weights of the included criteria. -/
theorem score_criteria_fold_total_bounds (lead : Obj) :
    ∀ (crits : List Obj) (bd : List (String × Val)) (t : ℚ),
      score_criteria_fold lead crits = .ok (bd, t) →
      0 ≤ t ∧ t ≤ ((crits.filter criterion_included).map criterion_weight).sum := by
  intro crits
  induction crits with
  | nil =>
      intro bd t h
      rw [score_criteria_fold] at h
      injection h with h2
      rw [Prod.mk.injEq] at h2
      obtain ⟨-, h4⟩ := h2
      subst h4
      simp
  | cons c rest ih =>
      intro bd t h
      rw [score_criteria_fold] at h
      by_cases hf : pyTruthy (objGetD c "field" (.str "")) = true
      · have hft : (!pyTruthy (objGetD c "field" (.str ""))) = false := by rw [hf]; rfl
        rw [hft, if_neg Bool.false_ne_true] at h
        rcases hw : pyLe0? (objGetD c "weight" (.num 0)) with e | wb
        · rw [hw, except_bind_err] at h
          exact absurd h (by simp)
        · rw [hw, except_bind_ok] at h
          by_cases hb : wb = true
          · rw [if_pos hb] at h
            have hni : criterion_included c = false := by
              simp [criterion_included, hf, hw, hb]
            have hfilter : List.filter criterion_included (c :: rest)
                = List.filter criterion_included rest := by
              simp [List.filter_cons, hni]
            rw [hfilter]
            exact ih bd t h
          · rw [if_neg hb] at h
            rcases hs : evaluate_criterion lead c with e | sc
            · rw [hs, except_bind_err] at h
              exact absurd h (by simp)
            · rw [hs, except_bind_ok] at h
              rcases hr : score_criteria_fold lead rest with e | pr
              · rw [hr, except_bind_err] at h
                exact absurd h (by simp)
              · obtain ⟨bd2, t2⟩ := pr
                rw [hr, except_bind_ok] at h
                simp only [Except.ok.injEq, Prod.mk.injEq] at h
                obtain ⟨h1, h2⟩ := h
                subst h2
                obtain ⟨ht0, ht1⟩ := ih bd2 t2 hr
                obtain ⟨hs0, hs1⟩ := evaluate_criterion_mem_unit lead c sc hs
                have hbf : wb = false := by simpa using hb
                have hwf : pyLe0? (objGetD c "weight" (.num 0)) = .ok false := by
                  rw [hw, hbf]
                have hwpos : 0 < numOf (objGetD c "weight" (.num 0)) :=
                  pyLe0_false_weight_pos _ hwf
                have hinc : criterion_included c = true := by
                  simp [criterion_included, hf, hw, hbf]
                have hfilter : List.filter criterion_included (c :: rest)
                    = c :: List.filter criterion_included rest := by
                  simp [List.filter_cons, hinc]
                rw [hfilter, List.map_cons, List.sum_cons]
                constructor
                · have : 0 ≤ sc * numOf (objGetD c "weight" (.num 0)) :=
                    mul_nonneg hs0 (le_of_lt hwpos)
                  linarith
                · have hle : sc * numOf (objGetD c "weight" (.num 0)) ≤
                      criterion_weight c := by
                    rw [criterion_weight]
                    nlinarith
                  linarith
      · have hff : (!pyTruthy (objGetD c "field" (.str ""))) = true := by
          simpa using hf
        rw [hff, if_pos rfl] at h
        have hni : criterion_included c = false := by
          simp [criterion_included]
          intro hcontra
          exact absurd hcontra hf
        have hfilter : List.filter criterion_included (c :: rest)
            = List.filter criterion_included rest := by
          simp [List.filter_cons, hni]
        rw [hfilter]
        exact ih bd t h

/-- C9: every raw criterion score produced by criterion evaluation lies in
the closed interval [0,1]; consequently, for a criteria list with
non-negative weights, each record's raw total before rounding is at least 0
and at most the summed weights of the criteria with a non-empty field and
positive weight (the included criteria). -/
theorem criterion_score_unit_interval_total_bound :
    (∀ (lead c : Obj) (s : ℚ), evaluate_criterion lead c = .ok s → 0 ≤ s ∧ s ≤ 1)
    ∧ (∀ (lead : Obj) (crits : List Obj) (bd : List (String × Val)) (t : ℚ),
        (∀ c ∈ crits, 0 ≤ criterion_weight c) →
        score_criteria_fold lead crits = .ok (bd, t) →
        0 ≤ t ∧ t ≤ ((crits.filter criterion_included).map criterion_weight).sum) := by
  constructor
  · exact evaluate_criterion_mem_unit
  · intro lead crits bd t _ h
    exact score_criteria_fold_total_bounds lead crits bd t h

/-- Witness for C9 at a concrete lead and criteria list. -/
theorem criterion_score_unit_interval_total_bound_witness :
    evaluate_criterion [("x", .num 5)] [("field", .str "x")] = .ok 1
    ∧ (0 ≤ (1 : ℚ) ∧ (1 : ℚ) ≤ 1)
    ∧ score_criteria_fold [("x", .num 5)] [[("field", .str "x"), ("weight", .num 2)]]
        = .ok ([("x", .obj [("raw_score", .num 1), ("weight", .num 2),
            ("weighted_score", .num 2)])], 2)
    ∧ (0 ≤ (2 : ℚ)
       ∧ (2 : ℚ) ≤ (([[("field", .str "x"), ("weight", .num 2)]].filter
            criterion_included).map criterion_weight).sum) := by
  have hfold : score_criteria_fold [("x", .num 5)] [[("field", .str "x"), ("weight", .num 2)]]
      = .ok ([("x", .obj [("raw_score", .num 1), ("weight", .num 2),
          ("weighted_score", .num 2)])], 2) := by
    norm_num +decide [score_criteria_fold, evaluate_criterion, evaluate_criterion_body,
      score_generic_criterion, objGetD, objHas, get_field_value, pyTruthy, pyLe0?, numOf,
      breakdownKey, lookup_cons_ite, except_bind_ok, except_bind_err, except_pure_eq]
  refine ⟨rfl, ?_, hfold, ?_⟩
  · exact criterion_score_unit_interval_total_bound.1 [("x", .num 5)] [("field", .str "x")] 1 rfl
  · exact criterion_score_unit_interval_total_bound.2 [("x", .num 5)]
      [[("field", .str "x"), ("weight", .num 2)]] _ _
      (by intro c hc; simp at hc; subst hc; norm_num +decide [criterion_weight, objGetD, lookup_cons_ite, numOf])
      hfold

/-- Rank/percentile annotation does not disturb the sort key (helper). -/
theorem lead_sort_key_annotated (x : Obj) (a b : Val) :
    lead_sort_key (objSet (objSet x "rank" a) "percentile" b) = lead_sort_key x := by
  rw [lead_sort_key, lead_sort_key, objGetD, objGetD,
    lookup_objSet_ne _ _ _ _ (by decide), lookup_objSet_ne _ _ _ _ (by decide)]

/-- C7: the ranking step sorts by total_score descending with ties keeping
their original relative order (stable sort, stated as: filtering the sorted
list at any one score value gives exactly the input's records with that
score, in input order), and position i (0-based) carries rank i+1 and
percentile (N - (i+1) + 1) / N * 100; hence the top record has
percentile 100. -/
theorem ranking_sorted_stable_percentile (scored : List Obj) (hne : scored ≠ []) :
    (rank_leads scored
      = (scored.insertionSort (fun a b => lead_sort_key b ≤ lead_sort_key a)).enum.map
          (fun p => objSet (objSet p.2 "rank" (.num ((p.1 : ℚ) + 1))) "percentile"
            (.num (((scored.length : ℚ) - (p.1 : ℚ)) / (scored.length : ℚ) * 100))))
    ∧ ((rank_leads scored).map lead_sort_key).Pairwise (fun a b => b ≤ a)
    ∧ (∀ q : ℚ,
        (scored.insertionSort (fun a b => lead_sort_key b ≤ lead_sort_key a)).filter
            (fun l => lead_sort_key l == q)
          = scored.filter (fun l => lead_sort_key l == q))
    ∧ (∀ i (h : i < (rank_leads scored).length),
        objGetD ((rank_leads scored).get ⟨i, h⟩) "rank" .null = .num ((i : ℚ) + 1)
        ∧ objGetD ((rank_leads scored).get ⟨i, h⟩) "percentile" .null
          = .num (((scored.length : ℚ) - ((i : ℚ) + 1) + 1) / (scored.length : ℚ) * 100))
    ∧ (∀ h0 : 0 < (rank_leads scored).length,
        objGetD ((rank_leads scored).get ⟨0, h0⟩) "percentile" .null = .num 100) := by
  haveI instTot : IsTotal Obj (fun a b => lead_sort_key b ≤ lead_sort_key a) :=
    ⟨fun a b => le_total (lead_sort_key b) (lead_sort_key a)⟩
  haveI instTrans : IsTrans Obj (fun a b => lead_sort_key b ≤ lead_sort_key a) :=
    ⟨fun _ _ _ hab hbc => le_trans hbc hab⟩
  have hlen_sort :
      (scored.insertionSort (fun a b => lead_sort_key b ≤ lead_sort_key a)).length
        = scored.length := List.length_insertionSort _ _
  have h1 : rank_leads scored
      = (scored.insertionSort (fun a b => lead_sort_key b ≤ lead_sort_key a)).enum.map
          (fun p => objSet (objSet p.2 "rank" (.num ((p.1 : ℚ) + 1))) "percentile"
            (.num (((scored.length : ℚ) - (p.1 : ℚ)) / (scored.length : ℚ) * 100))) := by
    simp only [rank_leads, hlen_sort]
  have hsorted :
      (scored.insertionSort (fun a b => lead_sort_key b ≤ lead_sort_key a)).Sorted
        (fun a b => lead_sort_key b ≤ lead_sort_key a) :=
    List.sorted_insertionSort _ scored
  have hmap : (rank_leads scored).map lead_sort_key
      = (scored.insertionSort (fun a b => lead_sort_key b ≤ lead_sort_key a)).map
          lead_sort_key := by
    rw [h1, List.map_map]
    have hcongr : ∀ p ∈ (scored.insertionSort
        (fun a b => lead_sort_key b ≤ lead_sort_key a)).enum,
        (lead_sort_key ∘ fun p : ℕ × Obj =>
          objSet (objSet p.2 "rank" (.num ((p.1 : ℚ) + 1))) "percentile"
            (.num (((scored.length : ℚ) - (p.1 : ℚ)) / (scored.length : ℚ) * 100))) p
          = (lead_sort_key ∘ Prod.snd) p := by
      intro p _
      exact lead_sort_key_annotated p.2 _ _
    rw [List.map_congr_left hcongr, ← List.map_map, List.enum_map_snd]
  have hlen_out : (rank_leads scored).length = scored.length := by
    rw [h1, List.length_map, List.enum_length, hlen_sort]
  refine ⟨h1, ?_, ?_, ?_⟩
  · rw [hmap, List.pairwise_map]
    exact hsorted
  · intro q
    have hperm : List.Perm
        ((scored.insertionSort (fun a b => lead_sort_key b ≤ lead_sort_key a)).filter
          (fun l => lead_sort_key l == q))
        (scored.filter (fun l => lead_sort_key l == q)) :=
      (List.perm_insertionSort _ scored).filter _
    have hsubl : List.Sublist (scored.filter (fun l => lead_sort_key l == q))
        (scored.insertionSort (fun a b => lead_sort_key b ≤ lead_sort_key a)) := by
      apply List.sublist_insertionSort
      · apply List.pairwise_of_forall_mem_list
        intro a ha b hb
        have hqa : lead_sort_key a = q := by simpa using List.of_mem_filter ha
        have hqb : lead_sort_key b = q := by simpa using List.of_mem_filter hb
        rw [hqa, hqb]
      · exact List.filter_sublist scored
    have hsubl2 : List.Sublist (scored.filter (fun l => lead_sort_key l == q))
        ((scored.insertionSort (fun a b => lead_sort_key b ≤ lead_sort_key a)).filter
            (fun l => lead_sort_key l == q)) := by
      have hthis := hsubl.filter (fun l => lead_sort_key l == q)
      simpa [List.filter_filter, Bool.and_self] using hthis
    exact (hsubl2.eq_of_length hperm.length_eq.symm).symm
  · have hpart4 : ∀ i (h : i < (rank_leads scored).length),
        objGetD ((rank_leads scored).get ⟨i, h⟩) "rank" .null = .num ((i : ℚ) + 1)
        ∧ objGetD ((rank_leads scored).get ⟨i, h⟩) "percentile" .null
          = .num (((scored.length : ℚ) - ((i : ℚ) + 1) + 1) / (scored.length : ℚ) * 100) := by
      intro i h
      have hget : (rank_leads scored).get ⟨i, h⟩
          = objSet (objSet ((scored.insertionSort
              (fun a b => lead_sort_key b ≤ lead_sort_key a)).get
                ⟨i, by rw [hlen_sort]; rwa [hlen_out] at h⟩) "rank" (.num ((i : ℚ) + 1)))
              "percentile"
              (.num (((scored.length : ℚ) - (i : ℚ)) / (scored.length : ℚ) * 100)) := by
        rw [List.get_of_eq h1, List.get_eq_getElem, List.getElem_map, List.getElem_enum]
        simp [List.get_eq_getElem]
      constructor
      · rw [hget, objGetD, lookup_objSet_ne _ _ _ _ (by decide), lookup_objSet]
        rfl
      · rw [hget, objGetD, lookup_objSet]
        rw [show ((scored.length : ℚ) - ((i : ℚ) + 1) + 1) = ((scored.length : ℚ) - (i : ℚ))
          from by ring]
        rfl
    refine ⟨hpart4, ?_⟩
    intro h0
    have hN0 : (scored.length : ℚ) ≠ 0 := by
      have : 0 < scored.length := List.length_pos.mpr hne
      exact_mod_cast Nat.pos_iff_ne_zero.mp this
    have h4 := (hpart4 0 h0).2
    rw [h4]
    rw [show ((scored.length : ℚ) - ((0 : ℕ) + 1 : ℚ) + 1) = (scored.length : ℚ) from by
      push_cast
      ring]
    rw [div_self hN0, one_mul]

/-- Witness for C7: two tied records keep their input order; ranks are 1,2
and percentiles 100, 50. -/
theorem ranking_sorted_stable_percentile_witness :
    rank_leads [[("total_score", .num 5), ("tag", .str "a")],
                [("total_score", .num 5), ("tag", .str "b")]]
      = [[("total_score", .num 5), ("tag", .str "a"), ("rank", .num 1), ("percentile", .num 100)],
         [("total_score", .num 5), ("tag", .str "b"), ("rank", .num 2), ("percentile", .num 50)]] := by
  rw [(ranking_sorted_stable_percentile
    [[("total_score", .num 5), ("tag", .str "a")],
     [("total_score", .num 5), ("tag", .str "b")]] (by simp)).1]
  norm_num +decide [List.insertionSort, List.orderedInsert, lead_sort_key, objGetD, numOf,
    lookup_cons_ite, List.enum, List.enumFrom, objSet]

/-- C1 counterexample: a unit that raises leads to one `errors` entry but NO
`execution_log` entry — refuting the claim that every per-step failure mode
appends an execution_log entry with success=false. -/
theorem step_failure_logging_counterexample :
    execute_workflow
      { steps := [{ id := "s1", agent := "ScoringAgent", inputs := [] }], config := [] }
      (fun _ _ => .error "boom") "r0" "t0"
    = .ok { workflow_id := "r0", start_time := "t0", current_step := none,
            execution_log := [],
            errors := [{ step_id := "s1", error := some "boom", timestamp := "t0" }],
            results := [], end_time := some "t0" } := rfl

/-- C1 (amended): when the unit returns a result, the step appends exactly
one execution_log entry carrying the result's success flag and, on
success=false, exactly one errors entry; when input resolution fails or the
unit raises, the step appends exactly one errors entry and NO execution_log
entry; in every case execution continues with the next step in plan order,
and execute_workflow returns the final run state whenever the graph builds
and the plan resolves (step-level failures never raise). -/
theorem step_failure_handling (wf : Workflow) (unit : UnitExec) (units : String → UnitExec)
    (step_id ts run_id : String) (state : RunState) :
    (∀ r : AgentResult,
        (prepare_node_input wf state.results step_id).bind unit = .ok r →
        (node_function wf unit step_id ts state).execution_log
            = state.execution_log ++ [LogEntry.mk step_id ts r.success r.execution_time]
        ∧ (r.success = false →
            (node_function wf unit step_id ts state).errors
              = state.errors ++ [ErrorEntry.mk step_id r.error ts])
        ∧ (r.success = true → (node_function wf unit step_id ts state).errors = state.errors))
    ∧ (∀ e : String,
        (prepare_node_input wf state.results step_id).bind unit = .error e →
        (node_function wf unit step_id ts state).errors
            = state.errors ++ [ErrorEntry.mk step_id (some e) ts]
        ∧ (node_function wf unit step_id ts state).execution_log = state.execution_log
        ∧ (node_function wf unit step_id ts state).results = state.results)
    ∧ (∀ rest : List String,
        run_steps wf units ts state (step_id :: rest)
          = run_steps wf units ts (node_function wf (units step_id) step_id ts state) rest)
    ∧ (∀ nodes plan, build_graph wf = .ok nodes → plan_of wf = .ok plan →
        execute_workflow wf units run_id ts
          = .ok { (run_steps wf units ts (create_initial_state run_id ts) plan) with
                    end_time := some ts }) := by
  refine ⟨?_, ?_, ?_, ?_⟩
  · intro r h
    cases hs : r.success
    · refine ⟨?_, fun _ => ?_, fun hc => ?_⟩
      · simp [node_function, h, hs]
      · simp [node_function, h, hs]
      · exact Bool.noConfusion hc
    · refine ⟨?_, fun hc => ?_, fun _ => ?_⟩
      · simp [node_function, h, hs]
      · exact Bool.noConfusion hc
      · simp [node_function, h, hs]
  · intro e h
    refine ⟨?_, ?_, ?_⟩ <;> simp [node_function, h]
  · intro rest
    rw [run_steps]
  · intro nodes plan hb hp
    rw [execute_workflow]
    rw [hb, except_bind_ok, hp, except_bind_ok]

/-- Witness for C1 at a one-step workflow whose unit reports failure. -/
theorem step_failure_handling_witness :
    (node_function
        { steps := [{ id := "s1", agent := "ScoringAgent", inputs := [] }], config := [] }
        (fun _ => .ok (AgentResult.mk false [] (some "agent failed") none)) "s1" "t0"
        (create_initial_state "r0" "t0")).execution_log
      = [LogEntry.mk "s1" "t0" false none]
    ∧ (node_function
        { steps := [{ id := "s1", agent := "ScoringAgent", inputs := [] }], config := [] }
        (fun _ => .ok (AgentResult.mk false [] (some "agent failed") none)) "s1" "t0"
        (create_initial_state "r0" "t0")).errors
      = [ErrorEntry.mk "s1" (some "agent failed") "t0"]
    ∧ execute_workflow
        { steps := [{ id := "s1", agent := "ScoringAgent", inputs := [] }], config := [] }
        (fun _ _ => .ok (AgentResult.mk false [] (some "agent failed") none)) "r0" "t0"
      = .ok { workflow_id := "r0", start_time := "t0", current_step := some "s1",
              execution_log := [LogEntry.mk "s1" "t0" false none],
              errors := [ErrorEntry.mk "s1" (some "agent failed") "t0"],
              results := [], end_time := some "t0" } := by
  have h1 := (step_failure_handling
      { steps := [{ id := "s1", agent := "ScoringAgent", inputs := [] }], config := [] }
      (fun _ => .ok (AgentResult.mk false [] (some "agent failed") none))
      (fun _ _ => .ok (AgentResult.mk false [] (some "agent failed") none))
      "s1" "t0" "r0" (create_initial_state "r0" "t0")).1
      (AgentResult.mk false [] (some "agent failed") none) rfl
  have h4 := (step_failure_handling
      { steps := [{ id := "s1", agent := "ScoringAgent", inputs := [] }], config := [] }
      (fun _ => .ok (AgentResult.mk false [] (some "agent failed") none))
      (fun _ _ => .ok (AgentResult.mk false [] (some "agent failed") none))
      "s1" "t0" "r0" (create_initial_state "r0" "t0")).2.2.2 ["s1"] ["s1"] rfl rfl
  refine ⟨?_, ?_, ?_⟩
  · rw [h1.1]
    rfl
  · rw [h1.2.1 rfl]
    rfl
  · rw [h4]
    rfl

/-- An unknown agent type anywhere in the step list makes the node-adding
phase raise (helper). -/
theorem add_nodes_error_of_unknown (s : Step) :
    ∀ (steps : List Step) (acc : List String), s ∈ steps → s.agent ∉ agent_classes →
      ∃ e, add_nodes steps acc = .error e := by
  intro steps
  induction steps with
  | nil =>
      intro acc hmem _
      cases hmem
  | cons c rest ih =>
      intro acc hmem hunk
      rw [add_nodes]
      split_ifs with h1 h2 h3
      · exact ⟨_, rfl⟩
      · exact ⟨_, rfl⟩
      · exact ⟨_, rfl⟩
      · rcases List.mem_cons.mp hmem with rfl | hmem2
        · refine absurd (List.mem_of_elem_eq_true ?_) hunk
          have hcon : agent_classes.contains s.agent = true := by
            rcases hcc : agent_classes.contains s.agent with _ | _
            · exact absurd (by rw [hcc]; rfl) h2
            · rfl
          simpa using hcon
        · exact ih _ hmem2 hunk

/-- C2 counterexample: a 3-step plan whose second step names a nonexistent
unit type does not return a run state with 3 log entries — graph
construction raises before any step runs, and execute_workflow propagates
the error. -/
theorem unknown_agent_counterexample :
    execute_workflow
      { steps := [{ id := "s1", agent := "ProspectSearchAgent", next_steps := ["s2"] },
                  { id := "s2", agent := "NonexistentAgent", next_steps := ["s3"] },
                  { id := "s3", agent := "ScoringAgent", next_steps := [] }], config := [] }
      (fun _ _ => .ok (AgentResult.mk true [] none none)) "r0" "t0"
    = .error "Unknown agent type: NonexistentAgent" := rfl

/-- C2 (amended): binding any step to an agent name absent from the
registry fails graph construction (a compile-time ValueError from
_create_agent), so execute_workflow raises before any step executes and no
run state is produced. -/
theorem unknown_agent_type_is_build_error (wf : Workflow) (units : String → UnitExec)
    (run_id ts : String) (s : Step) (hs : s ∈ wf.steps) (hunk : s.agent ∉ agent_classes) :
    (∃ e, build_graph wf = .error e)
    ∧ (∃ e, execute_workflow wf units run_id ts = .error e) := by
  obtain ⟨e, he⟩ := add_nodes_error_of_unknown s wf.steps [] hs hunk
  constructor
  · exact ⟨e, by rw [build_graph, he, except_bind_err]⟩
  · exact ⟨e, by rw [execute_workflow, build_graph, he, except_bind_err, except_bind_err]⟩

/-- Witness for C2 at the concrete 3-step workflow. -/
theorem unknown_agent_type_is_build_error_witness :
    (∃ e, build_graph
      { steps := [{ id := "s1", agent := "ProspectSearchAgent", next_steps := ["s2"] },
                  { id := "s2", agent := "NonexistentAgent", next_steps := ["s3"] },
                  { id := "s3", agent := "ScoringAgent", next_steps := [] }], config := [] }
      = .error e)
    ∧ (∃ e, execute_workflow
      { steps := [{ id := "s1", agent := "ProspectSearchAgent", next_steps := ["s2"] },
                  { id := "s2", agent := "NonexistentAgent", next_steps := ["s3"] },
                  { id := "s3", agent := "ScoringAgent", next_steps := [] }], config := [] }
      (fun _ _ => .ok (AgentResult.mk true [] none none)) "r0" "t0" = .error e) := by
  exact unknown_agent_type_is_build_error _ _ "r0" "t0"
    { id := "s2", agent := "NonexistentAgent", next_steps := ["s3"] }
    (by simp) (by decide)

/-- Duplicate ids among the remaining steps (relative to already-added
nodes) make the node-adding phase raise (helper). -/
theorem add_nodes_error_of_dup :
    ∀ (steps : List Step) (acc : List String), acc.Nodup →
      ¬ (acc ++ steps.map Step.id).Nodup →
      ∃ e, add_nodes steps acc = .error e := by
  intro steps
  induction steps with
  | nil =>
      intro acc hacc hdup
      simp only [List.map_nil, List.append_nil] at hdup
      exact absurd hacc hdup
  | cons c rest ih =>
      intro acc hacc hdup
      rw [add_nodes]
      split_ifs with h1 h2 h3
      · exact ⟨_, rfl⟩
      · exact ⟨_, rfl⟩
      · exact ⟨_, rfl⟩
      · have hnotmem : c.id ∉ acc := by
          intro hmem
          exact h3 (by simpa using hmem)
        apply ih (acc ++ [c.id])
        · simp [List.nodup_append, hacc, hnotmem]
        · intro hcontra
          apply hdup
          simpa [List.append_assoc] using hcontra
      
/-- A successful node-adding phase returns exactly the step ids appended to
the accumulator (helper). -/
theorem add_nodes_ok_ids :
    ∀ (steps : List Step) (acc nodes : List String),
      add_nodes steps acc = .ok nodes → nodes = acc ++ steps.map Step.id := by
  intro steps
  induction steps with
  | nil =>
      intro acc nodes h
      rw [add_nodes] at h
      injection h with h2
      simp [h2.symm]
  | cons c rest ih =>
      intro acc nodes h
      rw [add_nodes] at h
      split_ifs at h
      have := ih (acc ++ [c.id]) nodes h
      simpa [List.append_assoc] using this

/-- C3 counterexample: a 2-step successor cycle (a → b → a) compiles — graph
construction succeeds (langgraph permits cycles); the cycle surfaces only at
execution time as a recursion-limit error.  This refutes the claim that a
cycle reachable from the entry point is a compile-time failure. -/
theorem cycle_compiles_counterexample :
    build_graph
      { steps := [{ id := "a", agent := "ScoringAgent", next_steps := ["b"] },
                  { id := "b", agent := "ScoringAgent", next_steps := ["a"] }], config := [] }
      = .ok ["a", "b"]
    ∧ execute_workflow
      { steps := [{ id := "a", agent := "ScoringAgent", next_steps := ["b"] },
                  { id := "b", agent := "ScoringAgent", next_steps := ["a"] }], config := [] }
      (fun _ _ => .ok (AgentResult.mk true [] none none)) "r0" "t0"
      = .error "GraphRecursionError: recursion limit of 25 reached" :=
  ⟨rfl, rfl⟩

/-- C3 (amended): graph construction fails before any step runs for an
empty step list, for duplicated step ids, and for a FIRST `next_steps`
entry naming a nonexistent step; but `next_steps` entries after the first
are ignored (never validated), and a successor cycle compiles successfully,
failing only at execution time with a recursion-limit error. -/
theorem compile_failure_cases (wf : Workflow) :
    (wf.steps = [] → ∃ e, build_graph wf = .error e)
    ∧ (¬ (wf.steps.map Step.id).Nodup → ∃ e, build_graph wf = .error e)
    ∧ (∀ s t, s ∈ wf.steps → s.next_steps.head? = some t → t ∉ wf.steps.map Step.id →
        ∃ e, build_graph wf = .error e)
    ∧ build_graph
        { steps := [{ id := "s1", agent := "ScoringAgent", next_steps := ["s2", "ghost"] },
                    { id := "s2", agent := "ScoringAgent", next_steps := [] }], config := [] }
        = .ok ["s1", "s2"]
    ∧ build_graph
        { steps := [{ id := "a", agent := "ScoringAgent", next_steps := ["b"] },
                    { id := "b", agent := "ScoringAgent", next_steps := ["a"] }], config := [] }
        = .ok ["a", "b"] := by
  refine ⟨?_, ?_, ?_, rfl, rfl⟩
  · intro h
    refine ⟨"IndexError: list index out of range", ?_⟩
    rw [build_graph, h]
    rfl
  · intro hdup
    obtain ⟨e, he⟩ := add_nodes_error_of_dup wf.steps [] List.nodup_nil (by simpa using hdup)
    exact ⟨e, by rw [build_graph, he, except_bind_err]⟩
  · intro s t hs hhead hnot
    rcases han : add_nodes wf.steps [] with e | nodes
    · exact ⟨e, by rw [build_graph, han, except_bind_err]⟩
    · have hnodes : nodes = wf.steps.map Step.id := by
        simpa using add_nodes_ok_ids wf.steps [] nodes han
      have hval : edges_valid nodes wf.steps = false := by
        rcases hv : edges_valid nodes wf.steps with _ | _
        · rfl
        · exfalso
          rw [edges_valid] at hv
          have hall := List.all_eq_true.mp hv s hs
          rw [hhead] at hall
          exact hnot (by rw [← hnodes]; exact List.mem_of_elem_eq_true (by simpa using hall))
      refine ⟨"Found edge ending at unknown node", ?_⟩
      rw [build_graph, han, except_bind_ok]
      rcases hws : wf.steps with _ | ⟨c, cs⟩
      · rw [hws] at hs
        cases hs
      · rw [← hws]
        rw [show wf.steps.head? = some c by rw [hws]; rfl]
        simp only [hval, Bool.false_eq_true, if_false]

/-- Witness for C3 at concrete malformed specs: empty steps, a duplicated
id, and a first successor naming a ghost step. -/
theorem compile_failure_cases_witness :
    (∃ e, build_graph { steps := [], config := [] } = .error e)
    ∧ (∃ e, build_graph
        { steps := [{ id := "x", agent := "ScoringAgent", next_steps := [] },
                    { id := "x", agent := "ScoringAgent", next_steps := [] }], config := [] }
        = .error e)
    ∧ (∃ e, build_graph
        { steps := [{ id := "s1", agent := "ScoringAgent", next_steps := ["ghost"] }],
          config := [] }
        = .error e) := by
  refine ⟨?_, ?_, ?_⟩
  · exact (compile_failure_cases { steps := [], config := [] }).1 rfl
  · exact (compile_failure_cases _).2.1 (by simp)
  · exact (compile_failure_cases _).2.2.1
      { id := "s1", agent := "ScoringAgent", next_steps := ["ghost"] } "ghost"
      (by simp) rfl (by simp)
